import Mathlib

/-!
Verification of the AstrBot plugin-collection interchange engine
(`astrbot/core/collection/`): document model with JSON-schema validation,
sensitive-data filter, exporter, importer, and the priority-override
compatibility shim.

Python values flowing through the module are JSON-compatible; we embed them
as `JValue`.  Python `dict`s are embedded as association lists in insertion
order (a Python dict never holds duplicate keys, and `d[k] = v` overwrites
in place, which `dictSet` mirrors).  Python `None` is `JValue.null`.
-/

/-- JSON-compatible Python value (object / array / string / integer / bool /
None).  Object entries are kept in Python-dict insertion order. -/
inductive JValue where
  | null
  | bool (b : Bool)
  | int (n : Int)
  | str (s : String)
  | arr (xs : List JValue)
  | obj (kvs : List (String × JValue))
  deriving Repr

/-- Key lookup in an embedded dict (first occurrence; a genuine Python dict
has unique keys). -/
def lookupKv {α : Type} (kvs : List (String × α)) (k : String) : Option α :=
  match kvs with
  | [] => none
  | (k₁, v) :: rest => if k₁ = k then some v else lookupKv rest k

/-- Python `d[k] = v`: overwrite the value at an existing key in place,
otherwise append the new entry (insertion order preserved). -/
def dictSet {α : Type} (kvs : List (String × α)) (k : String) (v : α) :
    List (String × α) :=
  match kvs with
  | [] => [(k, v)]
  | (k₁, v₁) :: rest =>
      if k₁ = k then (k, v) :: rest else (k₁, v₁) :: dictSet rest k v

/-- The keys of an embedded dict. -/
def keysOf {α : Type} (kvs : List (String × α)) : List String :=
  kvs.map Prod.fst

namespace JValue

/-- Python truthiness of a JSON-compatible value: `None`, `False`, `0`, `""`,
`[]` and `\x7b\x7d` are falsy. -/
def jFalsy : JValue → Bool
  | .null => true
  | .bool b => !b
  | .int n => n = 0
  | .str s => s = ""
  | .arr xs => xs.isEmpty
  | .obj kvs => kvs.isEmpty

end JValue

/-- Python `str.strip()`: drop whitespace from both ends (Python also strips
`\x0b`/`\x0c` and Unicode spaces; the inputs of this module never contain
those). -/
def trimChars (cs : List Char) : List Char :=
  ((cs.dropWhile Char.isWhitespace).reverse.dropWhile Char.isWhitespace).reverse

/-- Python `int(str)` on a decimal literal: optional surrounding whitespace,
optional sign, at least one digit.  (Python also accepts digit-group
underscores; every call site in this module reaches `int()` on a string only
outside the schema-validated paths.) -/
def parsePyInt (s : String) : Option Int :=
  let t := trimChars s.data
  let core :=
    match t with
    | c :: rest => if c = '-' || c = '+' then rest else t
    | [] => t
  if core ≠ [] && core.all Char.isDigit then
    let n : Nat := core.foldl (fun acc c => acc * 10 + (c.toNat - 48)) 0
    some
      (match t with
       | c :: _ => if c = '-' then -(n : Int) else (n : Int)
       | [] => 0)
  else none

mutual
/-- Python `str(v)` rendering.  Only the scalar cases are ever reached after
schema validation (all coerced fields are schema-typed strings or
integers). -/
def pyStr (v : JValue) : String :=
  match v with
  | .null => "None"
  | .bool b => if b then "True" else "False"
  | .int n => toString n
  | .str s => s
  | .arr xs => "[" ++ ", ".intercalate (pyReprList xs) ++ "]"
  | .obj kvs => "\x7b" ++ ", ".intercalate (pyReprObj kvs) ++ "\x7d"

/-- Python `repr(v)` rendering (approximate for string escaping; unreachable
after schema validation). -/
def pyRepr (v : JValue) : String :=
  match v with
  | .null => "None"
  | .bool b => if b then "True" else "False"
  | .int n => toString n
  | .str s => "\x27" ++ s ++ "\x27"
  | .arr xs => "[" ++ ", ".intercalate (pyReprList xs) ++ "]"
  | .obj kvs => "\x7b" ++ ", ".intercalate (pyReprObj kvs) ++ "\x7d"
termination_by structural v

def pyReprList (xs : List JValue) : List String :=
  match xs with
  | [] => []
  | v :: rest => pyRepr v :: pyReprList rest
termination_by structural xs

def pyReprObj (kvs : List (String × JValue)) : List String :=
  match kvs with
  | [] => []
  | (k, v) :: rest => ("\x27" ++ k ++ "\x27: " ++ pyRepr v) :: pyReprObj rest
termination_by structural kvs
end

/-- `needle` is a leading run of `hay`. -/
def listStartsWith : List Char → List Char → Bool
  | [], _ => true
  | _ :: _, [] => false
  | c :: cs, d :: ds => c = d && listStartsWith cs ds

/-- `needle` occurs contiguously in `hay`: Python `needle in hay` for
strings. -/
def listHasSub (hay needle : List Char) : Bool :=
  match hay with
  | [] => needle.isEmpty
  | _ :: t => listStartsWith needle hay || listHasSub t needle

/-- `needle` is a trailing run of `hay`. -/
def listEndsWith (hay needle : List Char) : Bool :=
  listStartsWith needle.reverse hay.reverse

/-- Python `<` on strings: lexicographic by code point. -/
def charListLt : List Char → List Char → Bool
  | [], [] => false
  | [], _ :: _ => true
  | _ :: _, [] => false
  | c :: cs, d :: ds => c < d || (c = d && charListLt cs ds)

/-- Python `str.lower()` (per character; the module only lower-cases ASCII
identifiers and URL schemes). -/
def lowerChars (cs : List Char) : List Char :=
  cs.map Char.toLower

namespace SensitiveFilter

/-- `SENSITIVE_KEYWORDS` from `sensitive_filter.py` (substring matches on the
lower-cased key). -/
def SENSITIVE_KEYWORDS : List String :=
  ["key", "secret", "token", "password", "credential", "api_key",
   "access_token", "private_key", "auth", "group_id", "group", "qq_group",
   "guild", "channel", "user_id", "user", "qq", "uin", "openid", "uid",
   "endpoint", "base_url", "api_base", "url", "uri", "webhook", "callback",
   "host", "domain"]

/-- `SENSITIVE_KEY_PATTERNS`: each regex is a case-insensitive full match of
the form `.*SUFFIX$`, i.e. it accepts exactly the keys whose lower-casing
ends with the given suffix; the `(_id)?` / `(_url)?` alternatives are
expanded into two suffixes.  (Regex `.` does not cross a newline, but a key
containing a newline that ends in one of these suffixes always also contains
one of the keyword substrings above, so the overall predicate agrees.) -/
def SENSITIVE_KEY_SUFFIXES : List String :=
  ["_key", "_secret", "_token", "_password", "_credential", "_access_token",
   "_private_key", "_group", "_group_id", "_guild", "_guild_id", "_channel",
   "_channel_id", "_user", "_user_id", "_qq", "_uin", "_openid", "_endpoint",
   "_base_url", "_api_base", "_url", "_uri", "_webhook", "_webhook_url",
   "_callback", "_callback_url", "_host", "_domain"]

/-- `SensitiveFilter.is_sensitive_key`. -/
def is_sensitive_key (key : String) : Bool :=
  let key_lower := lowerChars key.data
  if SENSITIVE_KEYWORDS.any (fun k => listHasSub key_lower k.data) then true
  else SENSITIVE_KEY_SUFFIXES.any (fun suf => listEndsWith key_lower suf.data)

/-- Tail scan for the `bearer\s+.+` pattern: after the first whitespace
character, the pattern matches iff some further character is reached through
a whitespace run and is not a newline (regex `.` excludes newlines; `\s`
includes them). -/
def bearerScan : List Char → Bool
  | [] => false
  | c :: t => c ≠ '\n' || bearerScan t

/-- `^bearer\s+.+` (IGNORECASE, `re.match`) on an already lower-cased
string. -/
def bearerMatch (ls : List Char) : Bool :=
  listStartsWith "bearer".data ls &&
    (match ls.drop 6 with
     | [] => false
     | c :: t => c.isWhitespace && bearerScan t)

/-- `^SCHEME.+` (IGNORECASE, `re.match`): the scheme literal followed by at
least one non-newline character (regex `.` excludes newlines). -/
def schemeMatch (ls scheme : List Char) : Bool :=
  listStartsWith scheme ls &&
    (match ls.drop scheme.length with
     | [] => false
     | c :: _ => c ≠ '\n')

/-- `SensitiveFilter.is_sensitive_value`: strings only; the stripped value is
matched against `^sk-.*`, `^bearer\s+.+`, `^https?://.+`, `^wss?://.+`
(all IGNORECASE, prefix match). -/
def is_sensitive_value (v : JValue) : Bool :=
  match v with
  | .str s₀ =>
      let ls := lowerChars (trimChars s₀.data)
      listStartsWith "sk-".data ls ||
      bearerMatch ls ||
      schemeMatch ls "http://".data || schemeMatch ls "https://".data ||
      schemeMatch ls "ws://".data || schemeMatch ls "wss://".data
  | _ => false

mutual
/-- `SensitiveFilter.filter_data`: depth-bounded recursive redaction.  Beyond
`max_depth` the subtree is returned unmodified.  Mapping entries with a
sensitive key or sensitive value are dropped; list elements are filtered in
place; a bare sensitive scalar becomes `null`. -/
def filter_data (data : JValue) (depth : Nat) (max_depth : Nat) : JValue :=
  if depth > max_depth then data
  else
    match data with
    | .obj kvs => .obj (filterObjLoop kvs depth max_depth [])
    | .arr xs => .arr (filterArrLoop xs depth max_depth)
    | d => if is_sensitive_value d then .null else d
termination_by structural data

/-- The `for k, v in data.items()` loop of `filter_data`, building the
`filtered` dict left to right (`filtered[key] = ...` is `dictSet`). -/
def filterObjLoop (kvs : List (String × JValue)) (depth max_depth : Nat)
    (acc : List (String × JValue)) : List (String × JValue) :=
  match kvs with
  | [] => acc
  | (k, v) :: rest =>
      if is_sensitive_key k then filterObjLoop rest depth max_depth acc
      else if is_sensitive_value v then filterObjLoop rest depth max_depth acc
      else
        filterObjLoop rest depth max_depth
          (dictSet acc k (filter_data v (depth + 1) max_depth))
termination_by structural kvs

/-- The list comprehension of `filter_data` over a list. -/
def filterArrLoop (xs : List JValue) (depth max_depth : Nat) : List JValue :=
  match xs with
  | [] => []
  | v :: rest =>
      filter_data v (depth + 1) max_depth :: filterArrLoop rest depth max_depth
termination_by structural xs
end

end SensitiveFilter

/-! ## Document model (`models.py`) -/

/-- `data.get(k, default)`. -/
def pyGetD (kvs : List (String × JValue)) (k : String) (dflt : JValue) : JValue :=
  (lookupKv kvs k).getD dflt

/-- `JValue.null` test (Python `is None`, since Python `None` embeds as
`null`). -/
def JValue.isNull : JValue → Bool
  | .null => true
  | _ => false

/-- `int(v or 0)`: Python truthiness coercion followed by `int()`; `none`
is a raised exception. -/
def pyIntCoerce (v : JValue) : Option Int :=
  if JValue.jFalsy v then some 0
  else
    match v with
    | .int n => some n
    | .bool _ => some 1
    | .str s => parsePyInt s
    | _ => none

/-- `(v or [])` followed by list iteration: a falsy value becomes the empty
list, a list iterates its elements, anything else raises. -/
def pyIterList (v : JValue) : Option (List JValue) :=
  if JValue.jFalsy v then some []
  else
    match v with
    | .arr l => some l
    | _ => none

/-- `ImportOptions` dataclass. -/
structure ImportOptions where
  import_mode : String := "add"
  apply_configs : Bool := true
  overwrite_existing_configs : Bool := false
  apply_priority : Bool := true
  proxy : String := ""
  deriving Repr, DecidableEq

/-- `CollectionPlugin` dataclass. -/
structure CollectionPlugin where
  name : String
  repo : String
  version : String
  display_name : Option String := none
  deriving Repr, DecidableEq

/-- `CollectionPlugin.to_dict`: `display_name` is added only when not
`None`. -/
def CollectionPlugin.to_dict (p : CollectionPlugin) : JValue :=
  .obj ([("name", .str p.name), ("repo", .str p.repo),
         ("version", .str p.version)] ++
    (match p.display_name with
     | some d => [("display_name", .str d)]
     | none => []))

/-- `CollectionPlugin.from_dict`: `str()` coercions with `""` defaults;
`display_name` stays `None` when missing or `None`.  `none` models the
`AttributeError` raised on a non-dict argument. -/
def CollectionPlugin.from_dict (data : JValue) : Option CollectionPlugin :=
  match data with
  | .obj kvs =>
      some
        { name := pyStr (pyGetD kvs "name" (.str ""))
          repo := pyStr (pyGetD kvs "repo" (.str ""))
          version := pyStr (pyGetD kvs "version" (.str ""))
          display_name :=
            match lookupKv kvs "display_name" with
            | some .null => none
            | some v => some (pyStr v)
            | none => none }
  | _ => none

/-- `CollectionMetadata` dataclass. -/
structure CollectionMetadata where
  name : String
  description : String
  author : String
  version : String
  created_at : String
  astrbot_version : String
  plugin_count : Int
  deriving Repr, DecidableEq

/-- `CollectionMetadata.to_dict`. -/
def CollectionMetadata.to_dict (m : CollectionMetadata) : JValue :=
  .obj [("name", .str m.name), ("description", .str m.description),
        ("author", .str m.author), ("version", .str m.version),
        ("created_at", .str m.created_at),
        ("astrbot_version", .str m.astrbot_version),
        ("plugin_count", .int m.plugin_count)]

/-- `CollectionMetadata.from_dict`: `str()` coercions with `""` defaults and
`int(data.get("plugin_count", 0) or 0)`; `none` models a raised
exception. -/
def CollectionMetadata.from_dict (data : JValue) : Option CollectionMetadata :=
  match data with
  | .obj kvs =>
      match pyIntCoerce (pyGetD kvs "plugin_count" (.int 0)) with
      | some cnt =>
          some
            { name := pyStr (pyGetD kvs "name" (.str ""))
              description := pyStr (pyGetD kvs "description" (.str ""))
              author := pyStr (pyGetD kvs "author" (.str ""))
              version := pyStr (pyGetD kvs "version" (.str ""))
              created_at := pyStr (pyGetD kvs "created_at" (.str ""))
              astrbot_version := pyStr (pyGetD kvs "astrbot_version" (.str ""))
              plugin_count := cnt }
      | none => none
  | _ => none

/-- `PluginCollection` dataclass.  Python `None` for the two optional fields
embeds as `JValue.null` (Python cannot tell JSON `null` from `None`). -/
structure PluginCollection where
  schema_version : String
  metadata : CollectionMetadata
  plugins : List CollectionPlugin
  plugin_configs : JValue := .null
  handler_priority_overrides : JValue := .null
  deriving Repr

/-- `PluginCollection.SCHEMA_VERSION`. -/
def SCHEMA_VERSION : String := "1.0"

/-- Body of the dict built by `PluginCollection.to_dict`: the two optional
keys are added only when the field `is not None`. -/
def PluginCollection.toEntries (c : PluginCollection) : List (String × JValue) :=
  [("schema_version", .str c.schema_version),
   ("metadata", c.metadata.to_dict),
   ("plugins", .arr (c.plugins.map CollectionPlugin.to_dict))] ++
  (if c.plugin_configs.isNull then [] else
    [("plugin_configs", c.plugin_configs)]) ++
  (if c.handler_priority_overrides.isNull then [] else
    [("handler_priority_overrides", c.handler_priority_overrides)])

/-- `PluginCollection.to_dict`. -/
def PluginCollection.to_dict (c : PluginCollection) : JValue :=
  .obj c.toEntries

/-! ## Schema validation (`PluginCollection.JSON_SCHEMA` under
`jsonschema.Draft7Validator.iter_errors`).

The schema is fixed, so the validator is embedded as a function generating
the same errors in the same order as `iter_errors`: schema keywords in
schema-dict order (`type`, `required`, `additionalProperties`,
`properties` / `items`), object keywords silently skipping instances of the
wrong type, one error per missing required key, one combined error for
unexpected keys, recursion into present properties in properties-dict order
and into array items by index.  `format: date-time` produces no error
because no `format_checker` is installed.  `validate_dict` then sorts by
`list(e.path)` (stable) and joins. -/

/-- A component of a jsonschema error path: a dict key or a list index. -/
inductive PathComp where
  | str (s : String)
  | idx (n : Nat)
  deriving Repr, DecidableEq

/-- A single validation error: absolute path plus message. -/
structure VErr where
  path : List PathComp
  msg : String
  deriving Repr, DecidableEq

/-- Quote a token the way the error messages do. -/
def q (s : String) : String := "\x27" ++ s ++ "\x27"

/-- `type: "string"` check. -/
def typeErrStr (path : List PathComp) (v : JValue) : List VErr :=
  match v with
  | .str _ => []
  | _ => [⟨path, pyRepr v ++ " is not of type " ++ q "string"⟩]

/-- `type: "object"` check. -/
def typeErrObj (path : List PathComp) (v : JValue) : List VErr :=
  match v with
  | .obj _ => []
  | _ => [⟨path, pyRepr v ++ " is not of type " ++ q "object"⟩]

/-- `type: "integer"` check (Python `bool` is explicitly not an integer for
jsonschema). -/
def typeErrInt (path : List PathComp) (v : JValue) : List VErr :=
  match v with
  | .int _ => []
  | _ => [⟨path, pyRepr v ++ " is not of type " ++ q "integer"⟩]

/-- `type: ["object", "null"]` check. -/
def typeErrObjOrNull (path : List PathComp) (v : JValue) : List VErr :=
  match v with
  | .obj _ => []
  | .null => []
  | _ => [⟨path, pyRepr v ++ " is not of type " ++ q "object" ++ ", " ++
            q "null"⟩]

/-- `type: ["string", "null"]` check. -/
def typeErrStrOrNull (path : List PathComp) (v : JValue) : List VErr :=
  match v with
  | .str _ => []
  | .null => []
  | _ => [⟨path, pyRepr v ++ " is not of type " ++ q "string" ++ ", " ++
            q "null"⟩]

/-- `required` keyword: one error per missing key, in the order of the
required list (skipped for non-objects). -/
def requiredErrs (path : List PathComp) (req : List String)
    (kvs : List (String × JValue)) : List VErr :=
  req.filterMap fun r =>
    if (lookupKv kvs r).isSome then none
    else some ⟨path, q r ++ " is a required property"⟩

/-- `additionalProperties: false`: a single combined error when any key is
outside the declared property set (skipped for non-objects). -/
def additionalErrs (path : List PathComp) (props : List String)
    (kvs : List (String × JValue)) : List VErr :=
  let extras := (keysOf kvs).filter (fun k => !(props.contains k))
  if extras.isEmpty then []
  else
    [⟨path, "Additional properties are not allowed (" ++
       ", ".intercalate (extras.map q) ++ " unexpected)"⟩]

/-- Run a subschema check on a property if it is present. -/
def propErrs (kvs : List (String × JValue)) (key : String)
    (check : JValue → List VErr) : List VErr :=
  match lookupKv kvs key with
  | some v => check v
  | none => []

/-- `metadata.name` / `metadata.description`: `type: string` +
`maxLength`. -/
def checkBoundedStr (path : List PathComp) (bound : Nat) (v : JValue) :
    List VErr :=
  typeErrStr path v ++
    (match v with
     | .str s =>
         if s.length > bound then [⟨path, pyRepr v ++ " is too long"⟩] else []
     | _ => [])

/-- `metadata.plugin_count`: `type: integer` + `minimum: 0` (the bound only
applies to numbers). -/
def checkPluginCount (path : List PathComp) (v : JValue) : List VErr :=
  typeErrInt path v ++
    (match v with
     | .int n =>
         if n < 0 then
           [⟨path, pyRepr v ++ " is less than the minimum of 0"⟩]
         else []
     | _ => [])

/-- `schema_version`: `type: string` + `enum: ["1.0"]` (the enum test is a
plain equality, applied whatever the type). -/
def checkSchemaVersion (v : JValue) : List VErr :=
  typeErrStr [.str "schema_version"] v ++
    (match v with
     | .str s =>
         if s = "1.0" then []
         else [⟨[.str "schema_version"],
                 pyRepr v ++ " is not one of [" ++ q "1.0" ++ "]"⟩]
     | _ => [⟨[.str "schema_version"],
              pyRepr v ++ " is not one of [" ++ q "1.0" ++ "]"⟩])

def metadataRequired : List String :=
  ["name", "description", "author", "version", "created_at",
   "astrbot_version", "plugin_count"]

/-- The `metadata` subschema. -/
def checkMetadata (v : JValue) : List VErr :=
  typeErrObj [.str "metadata"] v ++
    (match v with
     | .obj kvs =>
         requiredErrs [.str "metadata"] metadataRequired kvs ++
         additionalErrs [.str "metadata"] metadataRequired kvs ++
         propErrs kvs "name" (checkBoundedStr [.str "metadata", .str "name"] 100) ++
         propErrs kvs "description"
           (checkBoundedStr [.str "metadata", .str "description"] 500) ++
         propErrs kvs "author" (typeErrStr [.str "metadata", .str "author"]) ++
         propErrs kvs "version" (typeErrStr [.str "metadata", .str "version"]) ++
         propErrs kvs "created_at"
           (typeErrStr [.str "metadata", .str "created_at"]) ++
         propErrs kvs "astrbot_version"
           (typeErrStr [.str "metadata", .str "astrbot_version"]) ++
         propErrs kvs "plugin_count"
           (checkPluginCount [.str "metadata", .str "plugin_count"])
     | _ => [])

def pluginRequired : List String := ["name", "repo", "version"]

def pluginProps : List String := ["name", "repo", "version", "display_name"]

/-- The `plugins.items` subschema, at index `i`. -/
def checkPluginItem (i : Nat) (v : JValue) : List VErr :=
  typeErrObj [.str "plugins", .idx i] v ++
    (match v with
     | .obj kvs =>
         requiredErrs [.str "plugins", .idx i] pluginRequired kvs ++
         additionalErrs [.str "plugins", .idx i] pluginProps kvs ++
         propErrs kvs "name" (typeErrStr [.str "plugins", .idx i, .str "name"]) ++
         propErrs kvs "repo" (typeErrStr [.str "plugins", .idx i, .str "repo"]) ++
         propErrs kvs "version"
           (typeErrStr [.str "plugins", .idx i, .str "version"]) ++
         propErrs kvs "display_name"
           (typeErrStrOrNull [.str "plugins", .idx i, .str "display_name"])
     | _ => [])

/-- The `plugins` subschema: `type: array` + `items` by index. -/
def checkPluginsAux (i : Nat) : List JValue → List VErr
  | [] => []
  | v :: rest => checkPluginItem i v ++ checkPluginsAux (i + 1) rest

def checkPlugins (v : JValue) : List VErr :=
  match v with
  | .arr xs => checkPluginsAux 0 xs
  | _ => [⟨[.str "plugins"], pyRepr v ++ " is not of type " ++ q "array"⟩]

/-- `plugin_configs`: `type: ["object", "null"]`;
`additionalProperties: true` yields nothing. -/
def checkPluginConfigs (v : JValue) : List VErr :=
  typeErrObjOrNull [.str "plugin_configs"] v

/-- `handler_priority_overrides`: `type: ["object", "null"]` +
`additionalProperties: \x7b"type": "integer"\x7d` applied to every entry in
instance order. -/
def checkOverridesAux : List (String × JValue) → List VErr
  | [] => []
  | (k, v) :: rest =>
      typeErrInt [.str "handler_priority_overrides", .str k] v ++
      checkOverridesAux rest

def checkOverrides (v : JValue) : List VErr :=
  typeErrObjOrNull [.str "handler_priority_overrides"] v ++
    (match v with
     | .obj kvs => checkOverridesAux kvs
     | _ => [])

def topRequired : List String := ["schema_version", "metadata", "plugins"]

def topProps : List String :=
  ["schema_version", "metadata", "plugins", "plugin_configs",
   "handler_priority_overrides"]

/-- `iter_errors` on the whole document, in generation order. -/
def rawErrors (v : JValue) : List VErr :=
  match v with
  | .obj kvs =>
      requiredErrs [] topRequired kvs ++
      additionalErrs [] topProps kvs ++
      propErrs kvs "schema_version" checkSchemaVersion ++
      propErrs kvs "metadata" checkMetadata ++
      propErrs kvs "plugins" checkPlugins ++
      propErrs kvs "plugin_configs" checkPluginConfigs ++
      propErrs kvs "handler_priority_overrides" checkOverrides
  | _ => [⟨[], pyRepr v ++ " is not of type " ++ q "object"⟩]

/-- Python `<` on path components, as the sort compares `str` / `int` list
elements (the mixed-type case never happens between two generated paths:
below a given parent, generated components are either all indices or all
keys; Python would raise there, the embedding picks `idx < str`). -/
def pcLt : PathComp → PathComp → Bool
  | .idx m, .idx n => decide (m < n)
  | .str a, .str b => charListLt a.data b.data
  | .idx _, .str _ => true
  | .str _, .idx _ => false

/-- Python list comparison on paths: the stable ascending sort orders `a`
before `b` when `not (key(b) < key(a))`; for lexicographic list comparison
over a linear element order this is exactly the lexicographic `≤` below. -/
def pathLe : List PathComp → List PathComp → Bool
  | [], _ => true
  | _ :: _, [] => false
  | a :: as₁, b :: bs₁ => if a = b then pathLe as₁ bs₁ else pcLt a b

/-- `sorted(errors, key=lambda e: list(e.path))`.  Python sort is stable
and ascending; under the total preorder `pathLe` a stable sort has a unique
result, so the stable `List.insertionSort` embeds it faithfully. -/
def sortErrors (es : List VErr) : List VErr :=
  List.insertionSort (fun e₁ e₂ => pathLe e₁.path e₂.path = true) es

/-- `"/".join(str(p) for p in err.absolute_path)`. -/
def pathLoc (path : List PathComp) : String :=
  "/".intercalate (path.map fun pc =>
    match pc with
    | .str s => s
    | .idx n => toString n)

/-- One part of the joined message: `loc: msg`, or just `msg` for an empty
location. -/
def errPart (e : VErr) : String :=
  (if pathLoc e.path ≠ "" then pathLoc e.path ++ ": " else "") ++ e.msg

/-- `PluginCollection.validate_dict`: sort all errors by path, join with
`"; "`, raise when any. -/
def validate_dict (v : JValue) : Except String Unit :=
  match sortErrors (rawErrors v) with
  | [] => .ok ()
  | es => .error ("; ".intercalate (es.map errPart))

/-- `PluginCollection.from_dict`: validate, then map fields.  The branches
marked unreachable model exceptions that validation has already ruled
out. -/
def PluginCollection.from_dict (data : JValue) : Except String PluginCollection :=
  match validate_dict data with
  | .error e => .error e
  | .ok () =>
      match data with
      | .obj kvs =>
          match lookupKv kvs "metadata" with
          | none => .error "KeyError: metadata"
          | some mv =>
              match CollectionMetadata.from_dict mv with
              | none => .error "metadata field coercion raised"
              | some meta =>
                  match pyIterList (pyGetD kvs "plugins" .null) with
                  | none => .error "plugins is not iterable as a list"
                  | some items =>
                      match items.mapM CollectionPlugin.from_dict with
                      | none => .error "plugin entry coercion raised"
                      | some ps =>
                          .ok
                            { schema_version :=
                                pyStr (pyGetD kvs "schema_version"
                                  (.str SCHEMA_VERSION))
                              metadata := meta
                              plugins := ps
                              plugin_configs :=
                                pyGetD kvs "plugin_configs" .null
                              handler_priority_overrides :=
                                pyGetD kvs "handler_priority_overrides" .null }
      | _ => .error "data is not a dict"

/-! ## Exporter (`exporter.py`) -/

/-- `ExportOptions` dataclass. -/
structure ExportOptions where
  name : String
  description : String := ""
  author : String := ""
  version : String := "1.0.0"
  include_configs : Bool := true
  include_priority : Bool := true
  exclude_plugins : Option (List String) := none
  deriving Repr

/-- One installed plugin as the lifecycle collaborator reports it
(`list_installed() → [\x7bname, repo, version, display_name, reserved,
config?\x7d]` per the spec).  `repo = ""` embeds a missing/falsy repo;
`config = none` embeds an absent live configuration object. -/
structure StarInfo where
  name : String
  repo : String
  version : Option String := none
  display_name : Option String := none
  reserved : Bool := false
  config : Option (List (String × JValue)) := none
  deriving Repr

/-- The `for plugin in get_all_stars()` loop of `CollectionExporter.export`:
skip excluded / repo-less / nameless plugins, emit a `CollectionPlugin`, and
when `include_configs` store the sensitively-filtered config dict (the
`dict(cfg)` conversion is the identity here; its `except` fallback to
`\x7b\x7d` is unreachable in the embedding). -/
def exportLoop (include_configs : Bool) (exclude : List String)
    (stars : List StarInfo) (plugins : List CollectionPlugin)
    (cfgs : List (String × JValue)) :
    List CollectionPlugin × List (String × JValue) :=
  match stars with
  | [] => (plugins, cfgs)
  | st :: rest =>
      if exclude.contains st.name then
        exportLoop include_configs exclude rest plugins cfgs
      else if st.repo = "" then
        exportLoop include_configs exclude rest plugins cfgs
      else if st.name = "" then
        exportLoop include_configs exclude rest plugins cfgs
      else
        let plugins₁ := plugins ++
          [{ name := st.name, repo := st.repo, version := st.version.getD "",
             display_name := st.display_name }]
        let cfgs₁ :=
          if include_configs then
            match st.config with
            | none => cfgs
            | some cfg =>
                dictSet cfgs st.name
                  (SensitiveFilter.filter_data (.obj cfg) 0 20)
          else cfgs
        exportLoop include_configs exclude rest plugins₁ cfgs₁

/-- The `PluginCollection` assembled by `CollectionExporter.export` before
serialization.  `overrides` is the result of
`PriorityCompatibility.get_priority_overrides()` (always a `dict[str, int]`),
`createdAt` the export-time UTC timestamp and `astrbotVersion` the host
version string. -/
def exportCollection (opts : ExportOptions) (stars : List StarInfo)
    (overrides : List (String × Int)) (createdAt astrbotVersion : String) :
    PluginCollection :=
  let exclude := opts.exclude_plugins.getD []
  let pc := exportLoop opts.include_configs exclude stars [] []
  { schema_version := SCHEMA_VERSION
    metadata :=
      { name := opts.name
        description := opts.description
        author := opts.author
        version := opts.version
        created_at := createdAt
        astrbot_version := astrbotVersion
        plugin_count := (pc.1.length : Int) }
    plugins := pc.1
    plugin_configs := if opts.include_configs then .obj pc.2 else .null
    handler_priority_overrides :=
      if opts.include_priority then
        .obj (overrides.map fun kv => (kv.1, .int kv.2))
      else .null }

/-- `CollectionExporter.export`: assemble, serialize with `to_dict`, then
re-validate the payload; validation failure raises. -/
def export_payload (opts : ExportOptions) (stars : List StarInfo)
    (overrides : List (String × Int)) (createdAt astrbotVersion : String) :
    Except String JValue :=
  let coll := exportCollection opts stars overrides createdAt astrbotVersion
  let payload := coll.to_dict
  match validate_dict payload with
  | .ok () => .ok payload
  | .error e => .error e

/-! ## Priority compatibility shim (`compatibility.py`) -/

/-- A value held in a handler's `extras_configs` dict. -/
inductive PVal where
  | int (n : Int)
  | str (s : String)
  | pyNone
  deriving Repr, DecidableEq

/-- Python truthiness of a `PVal`. -/
def pvFalsy : PVal → Bool
  | .int n => n = 0
  | .str s => s = ""
  | .pyNone => true

/-- `int(v or 0)` on an extras value; `none` models a raised exception
(e.g. a non-numeric string). -/
def pvToInt (v : PVal) : Option Int :=
  if pvFalsy v then some 0
  else
    match v with
    | .int n => some n
    | .str s => parsePyInt s
    | .pyNone => some 0

/-- A registered event handler: `star_handlers_registry` entry with its
`extras_configs` dict.  The registry list is `_handlers`;
`star_handlers_map.get(name)` is first-by-name lookup in it. -/
structure Handler where
  name : String
  extras_configs : List (String × PVal)
  deriving Repr, DecidableEq

/-- `int(h.extras_configs.get("priority", 0) or 0)` — the sort key (before
negation); `none` models the key function raising. -/
def sortKeyOf (h : Handler) : Option Int :=
  pvToInt ((lookupKv h.extras_configs "priority").getD (.int 0))

/-- `\x7bstr(k): int(v) for k, v in (overrides or \x7b\x7d).items()\x7d`:
rebuild the dict entry by entry (duplicate keys last-wins). -/
def normalizeOverrides (ov : List (String × Int)) : List (String × Int) :=
  ov.foldl (fun acc kv => dictSet acc kv.1 kv.2) []

/-- `handler.extras_configs["priority"] = int(priority)` on the handler the
map resolves `name` to (first occurrence); absent names are skipped. -/
def mutateFirst (hs : List Handler) (name : String) (p : Int) : List Handler :=
  match hs with
  | [] => []
  | h :: rest =>
      if h.name = name then
        { h with extras_configs := dictSet h.extras_configs "priority" (.int p) } :: rest
      else h :: mutateFirst rest name p

/-- The `for name, priority in normalized.items()` mutation loop. -/
def applyMutations (hs : List Handler) (normalized : List (String × Int)) :
    List Handler :=
  normalized.foldl (fun acc kv => mutateFirst acc kv.1 kv.2) hs

/-- `_handlers.sort(key=lambda h: -int(...))`: all keys are computed first
(so a raising key aborts with the list unchanged in CPython; only the
boolean outcome and the success ordering matter here); on success the list
is stably sorted ascending by `-key`, i.e. descending by key. -/
def trySortHandlers (hs : List Handler) : Option (List Handler) :=
  if hs.all (fun h => (sortKeyOf h).isSome) then
    some (List.insertionSort
      (fun a b => (sortKeyOf b).getD 0 ≤ (sortKeyOf a).getD 0) hs)
  else none

/-- `PriorityCompatibility.apply_priority_overrides`.  `writeOk` is whether
`sp.global_put` succeeds; on write failure the registry is mutated directly
and re-sorted, and only a sort failure yields `false`.  Returns the boolean
and the registry afterwards. -/
def apply_priority_overrides (writeOk : Bool) (overrides : List (String × Int))
    (registry : List Handler) : Bool × List Handler :=
  let normalized := normalizeOverrides overrides
  if writeOk then (true, registry)
  else
    let mutated := applyMutations registry normalized
    match trySortHandlers mutated with
    | some sorted => (true, sorted)
    | none => (false, mutated)

/-! ## Importer (`importer.py`)

External collaborator behaviour (lifecycle manager, conflict-detection
shim, key-value store) is injected through `PluginEnv`; every call the
importer makes into a collaborator that could change external state is
recorded as an `Effect`, in program order.  The install phase's
`asyncio.gather` with a semaphore of 3 returns per-task results in task
order, which the sequential embedding reproduces; per-task exceptions are
caught inside `_install_one`, so the `return_exceptions`/cancellation
branches of the result loop are unreachable here. -/

/-- `get_registered_star(name)` result: the live registered plugin with its
config object (`none` config embeds `md.config` being `None`). -/
structure RegisteredStar where
  config : Option (List (String × JValue)) := none
  deriving Repr

/-- The injected external world of one import run. -/
structure PluginEnv where
  stars : List StarInfo
  uninstall_ok : String → Bool
  uninstall_err : String → String
  install_ok : String → Bool
  install_err : String → String
  registered : String → Option RegisteredStar
  save_ok : String → Bool
  conflict_report : Option JValue
  priority_write_ok : Bool
  registry : List Handler

/-- One observable call into a collaborator. -/
inductive Effect where
  | checkConflicts (names : List String)
  | uninstall (name : String)
  | install (repo : String) (proxy : String)
  | saveConfig (name : String) (cfg : List (String × JValue))
  | reloadPlugin (name : String)
  | priorityWrite (overrides : List (String × Int))
  deriving Repr

/-- A `\x7bname, status, message\x7d` entry of the final report (entries the
source emits without a message carry `""`). -/
structure ItemRes where
  name : String
  status : String
  message : String := ""
  deriving Repr, DecidableEq

/-- The final report of `import_collection`. -/
structure ImportReport where
  installed : List ItemRes
  failed : List ItemRes
  skipped : List (String × String)
  uninstalled : List ItemRes
  configs_applied : Nat
  priority_applied : Bool
  conflicts : Option JValue
  deriving Repr

/-- Python `\x7b**a, **b\x7d`: start from `a`, then write each entry of `b`
(overwriting in place). -/
def mergeDicts (a b : List (String × JValue)) : List (String × JValue) :=
  b.foldl (fun acc kv => dictSet acc kv.1 kv.2) a

/-- The plugins the clean-mode uninstall loop iterates: installed,
non-reserved, named, and not in the document's keep-set (in registry
order). -/
def uninstallTargets (stars : List StarInfo) (keep : List String) :
    List StarInfo :=
  stars.filter fun p => !p.reserved && p.name ≠ "" && !(keep.contains p.name)

/-- One iteration of the config-merge loop: the number of configs applied
(0 or 1) and the collaborator calls it makes.  A failed `save_config` is
logged and skips the reload; a reload failure is only logged (the counter
was already incremented). -/
def configStep (env : PluginEnv) (options : ImportOptions)
    (before : List String) (pname : String) (cfg : JValue) :
    Nat × List Effect :=
  match cfg with
  | .obj cfgKvs =>
      match env.registered pname with
      | none => (0, [])
      | some md =>
          match md.config with
          | none => (0, [])
          | some curCfg =>
              if curCfg.isEmpty then (0, [])
              else if options.import_mode == "add" && before.contains pname &&
                  !options.overwrite_existing_configs then
                (0, [])
              else
                let merged := mergeDicts curCfg cfgKvs
                if env.save_ok pname then
                  (1, [.saveConfig pname merged, .reloadPlugin pname])
                else
                  (0, [.saveConfig pname merged])
  | _ => (0, [])

/-- The `for plugin_name, cfg in collection.plugin_configs.items()` loop. -/
def configPhase (env : PluginEnv) (options : ImportOptions)
    (before : List String) :
    List (String × JValue) → Nat × List Effect
  | [] => (0, [])
  | (pname, cfg) :: rest =>
      let step := configStep env options before pname cfg
      let tail := configPhase env options before rest
      (step.1 + tail.1, step.2 ++ tail.2)

/-- The config-merge phase: runs only when `apply_configs` is set and the
document carries a `plugin_configs` dict. -/
def configPhaseTop (env : PluginEnv) (options : ImportOptions)
    (before : List String) (coll : PluginCollection) : Nat × List Effect :=
  if options.apply_configs then
    match coll.plugin_configs with
    | .obj entries => configPhase env options before entries
    | _ => (0, [])
  else (0, [])

/-- The priority-apply phase: runs only when `apply_priority` is set and the
document carries a `handler_priority_overrides` dict; the `int(v)` coercion
inside the shim raises (`.inr ()`) on a non-integer value, before any
write. -/
def priorityPhase (env : PluginEnv) (options : ImportOptions)
    (coll : PluginCollection) : (Bool × List Effect) ⊕ Unit :=
  if options.apply_priority then
    match coll.handler_priority_overrides with
    | .obj okvs =>
        match okvs.mapM (fun kv =>
            match kv.2 with
            | JValue.int n => some (kv.1, n)
            | _ => none) with
        | some ov =>
            .inl (((apply_priority_overrides env.priority_write_ok ov
                     env.registry).1),
                  [Effect.priorityWrite ov])
        | none => .inr ()
    | _ => .inl (false, [])
  else .inl (false, [])

/-- `CollectionImporter.import_collection`, returning the report (or the
propagated exception) together with the trace of collaborator calls in
program order. -/
def import_collection (env : PluginEnv) (coll : PluginCollection)
    (options : ImportOptions) : Except String ImportReport × List Effect :=
  if !(options.import_mode == "add" || options.import_mode == "clean") then
    (.error "import_mode must be add or clean", [])
  else
    let installed_before := env.stars.map StarInfo.name
    let trace₀ := [Effect.checkConflicts (coll.plugins.map CollectionPlugin.name)]
    let targets :=
      if options.import_mode == "clean" then
        uninstallTargets env.stars (coll.plugins.map CollectionPlugin.name)
      else []
    let uninstalled := targets.map fun p =>
      if env.uninstall_ok p.name then ItemRes.mk p.name "ok" ""
      else ItemRes.mk p.name "error" (env.uninstall_err p.name)
    let traceU := targets.map fun p => Effect.uninstall p.name
    let skipped := coll.plugins.filterMap fun p =>
      if options.import_mode == "add" && installed_before.contains p.name then
        some (p.name, "already_installed")
      else none
    let tasks := coll.plugins.filter fun p =>
      !(options.import_mode == "add" && installed_before.contains p.name)
    let rawResults := tasks.map fun p =>
      if env.install_ok p.repo then ItemRes.mk p.name "ok" "installed"
      else ItemRes.mk p.name "error" (env.install_err p.repo)
    let traceI := tasks.map fun p => Effect.install p.repo options.proxy
    let installed := rawResults.filter fun r => r.status == "ok"
    let failed := rawResults.filter fun r => !(r.status == "ok")
    let cfgRes := configPhaseTop env options installed_before coll
    let prio := priorityPhase env options coll
    match prio with
    | .inr () =>
        (.error "int() raised on a handler priority override",
         trace₀ ++ traceU ++ traceI ++ cfgRes.2)
    | .inl pr =>
        (.ok { installed := installed
               failed := failed
               skipped := skipped
               uninstalled := uninstalled
               configs_applied := cfgRes.1
               priority_applied := pr.1
               conflicts := env.conflict_report },
         trace₀ ++ traceU ++ traceI ++ cfgRes.2 ++ pr.2)

/-! ## Concrete examples used by witnesses and counterexamples -/

/-- A 1 + n levels deep nesting of mappings whose innermost mapping holds a
sensitive key. -/
def deepNest : Nat → JValue
  | 0 => .obj [("api_key", .str "leaf-secret"), ("data", .str "d")]
  | n + 1 => .obj [("level", deepNest n)]

/-- A mapping nested 25 levels deep, with a sensitive key at the top level
and another inside the deepest mapping. -/
def deepDoc25 : JValue :=
  .obj [("token", .str "x"), ("level", deepNest 23)]

/-- A document whose `metadata` is missing `author` and which carries an
unknown top-level key (otherwise valid). -/
def c5doc : JValue :=
  .obj
    [("schema_version", .str "1.0"),
     ("metadata", .obj
       [("name", .str "c"), ("description", .str ""), ("version", .str "1"),
        ("created_at", .str "2024-01-01T00:00:00+00:00"),
        ("astrbot_version", .str "3.5"), ("plugin_count", .int 0)]),
     ("plugins", .arr []),
     ("bogus_key_zzz", .str "x")]

/-- Installed-plugin state `\x7bA, B, C(reserved)\x7d` of the clean-import
example. -/
def starsABC : List StarInfo :=
  [{ name := "A", repo := "rA" }, { name := "B", repo := "rB" },
   { name := "C", repo := "rC", reserved := true }]

/-- A benign collaborator environment for the importer examples. -/
def envEx : PluginEnv :=
  { stars := starsABC
    uninstall_ok := fun _ => true
    uninstall_err := fun _ => ""
    install_ok := fun _ => true
    install_err := fun _ => ""
    registered := fun _ => none
    save_ok := fun _ => true
    conflict_report := none
    priority_write_ok := true
    registry := [] }

/-- A document carrying exactly plugin `A`. -/
def collEx : PluginCollection :=
  { schema_version := "1.0"
    metadata := { name := "m", description := "", author := "", version := "1",
                  created_at := "t", astrbot_version := "v", plugin_count := 1 }
    plugins := [{ name := "A", repo := "rA", version := "1" }] }

/-- An environment where plugin `A` is installed and registered with a live
non-empty config. -/
def envC7 : PluginEnv :=
  { stars := starsABC
    uninstall_ok := fun _ => true
    uninstall_err := fun _ => ""
    install_ok := fun _ => true
    install_err := fun _ => ""
    registered := fun n =>
      if n = "A" then some { config := some [("mode", .str "old")] } else none
    save_ok := fun _ => true
    conflict_report := none
    priority_write_ok := true
    registry := [] }

/-- A document carrying plugin `A` together with a configuration for it. -/
def collC7 : PluginCollection :=
  { schema_version := "1.0"
    metadata := { name := "m", description := "", author := "", version := "1",
                  created_at := "t", astrbot_version := "v", plugin_count := 1 }
    plugins := [{ name := "A", repo := "rA", version := "1" }]
    plugin_configs := .obj [("A", .obj [("mode", .str "new")])] }

/-- Two handlers sharing priority 5. -/
def regEqualPrio : List Handler :=
  [{ name := "hA", extras_configs := [("priority", .int 5)] },
   { name := "hB", extras_configs := [("priority", .int 5)] }]

/-- A registry whose second handler has a non-numeric priority string, so
the re-sort key raises. -/
def regBadPrio : List Handler :=
  [{ name := "hA", extras_configs := [("priority", .int 5)] },
   { name := "hB", extras_configs := [("priority", .str "zz")] }]

/-- Default export options with a fixed name. -/
def exOptsW : ExportOptions := { name := "mycoll" }

/-- A concrete installed-plugin state for the export round-trip witness. -/
def exStarsW : List StarInfo :=
  [{ name := "alpha"
     repo := "https://g/x"
     version := some "1.2"
     display_name := some "Alpha"
     reserved := false
     config := some [("api_key", .str "secretvalue"), ("note", .str "keep me")] },
   { name := "beta", repo := "" }]

/-- Strict descending order of the handler registry by effective priority
key. -/
def strictlyDescByPriority : List Handler → Bool
  | [] => true
  | [_] => true
  | a :: b :: rest =>
      decide ((sortKeyOf b).getD 0 < (sortKeyOf a).getD 0) &&
        strictlyDescByPriority (b :: rest)

/-- Non-increasing (descending, ties allowed) order of the handler registry
by effective priority key. -/
def descByPriority : List Handler → Bool
  | [] => true
  | [_] => true
  | a :: b :: rest =>
      decide ((sortKeyOf b).getD 0 ≤ (sortKeyOf a).getD 0) &&
        descByPriority (b :: rest)

/-- The uninstall calls of a trace. -/
def uninstallCalls (trace : List Effect) : List Effect :=
  trace.filter fun e =>
    match e with
    | .uninstall _ => true
    | _ => false

/-! ## Helper lemmas -/

theorem isNull_iff (v : JValue) : v.isNull = true ↔ v = .null := by
  cases v <;> simp [JValue.isNull]

theorem pyIntCoerce_int (n : Int) : pyIntCoerce (.int n) = some n := by
  by_cases h : n = 0 <;> simp [pyIntCoerce, JValue.jFalsy, h]

theorem pyIterList_arr (l : List JValue) : pyIterList (.arr l) = some l := by
  cases l <;> simp [pyIterList, JValue.jFalsy]

theorem mem_keysOf_dictSet {α : Type} (kvs : List (String × α)) (k k₀ : String)
    (v : α) :
    k ∈ keysOf (dictSet kvs k₀ v) ↔ k ∈ keysOf kvs ∨ k = k₀ := by
  induction kvs with
  | nil => simp [dictSet, keysOf]
  | cons hd tl ih =>
      obtain ⟨k₁, v₁⟩ := hd
      by_cases h : k₁ = k₀
      · subst h
        simp [dictSet, keysOf]
        tauto
      · simp only [dictSet, if_neg h, keysOf, List.map_cons, List.mem_cons]
        rw [show keysOf (dictSet tl k₀ v) = (dictSet tl k₀ v).map Prod.fst from rfl] at ih
        rw [show keysOf tl = tl.map Prod.fst from rfl] at ih
        rw [ih]
        tauto

theorem mem_dictSet_self {α : Type} (kvs : List (String × α)) (k : String)
    (v : α) : (k, v) ∈ dictSet kvs k v := by
  induction kvs with
  | nil => simp [dictSet]
  | cons hd tl ih =>
      obtain ⟨k₁, v₁⟩ := hd
      by_cases h : k₁ = k
      · simp [dictSet, h]
      · simp only [dictSet, if_neg h, List.mem_cons]
        exact Or.inr ih

theorem mem_dictSet_of_ne {α : Type} {kvs : List (String × α)} {k k₀ : String}
    {x : α} (v : α) (hmem : (k, x) ∈ kvs) (hne : k ≠ k₀) :
    (k, x) ∈ dictSet kvs k₀ v := by
  induction kvs with
  | nil => simp at hmem
  | cons hd tl ih =>
      obtain ⟨k₁, v₁⟩ := hd
      by_cases h : k₁ = k₀
      · subst h
        rcases List.mem_cons.mp hmem with heq | htl
        · injection heq with ha hb
          exact absurd ha hne
        · simp [dictSet, List.mem_cons]
          exact Or.inr htl
      · rcases List.mem_cons.mp hmem with heq | htl
        · simp [dictSet, if_neg h, heq.symm]
        · simp only [dictSet, if_neg h, List.mem_cons]
          exact Or.inr (ih htl)

theorem mem_of_mem_dictSet {α : Type} {kvs : List (String × α)} {k k₀ : String}
    {x v : α} (hmem : (k, x) ∈ dictSet kvs k₀ v) :
    (k, x) ∈ kvs ∨ (k = k₀ ∧ x = v) := by
  induction kvs with
  | nil =>
      simp [dictSet] at hmem
      exact Or.inr hmem
  | cons hd tl ih =>
      obtain ⟨k₁, v₁⟩ := hd
      by_cases h : k₁ = k₀
      · subst h
        rw [dictSet, if_pos rfl] at hmem
        rcases List.mem_cons.mp hmem with heq | htl
        · injection heq with ha hb
          exact Or.inr ⟨ha, hb⟩
        · exact Or.inl (List.mem_cons.mpr (Or.inr htl))
      · rw [dictSet, if_neg h] at hmem
        rcases List.mem_cons.mp hmem with heq | htl
        · exact Or.inl (List.mem_cons.mpr (Or.inl heq))
        · rcases ih htl with hl | hr
          · exact Or.inl (List.mem_cons.mpr (Or.inr hl))
          · exact Or.inr hr

/-! ## Claim theorems -/

/-- C6: for every environment, document and options whose `import_mode` is
neither "add" nor "clean", `import_collection` fails with an error before
any phase runs: the collaborator-call trace is empty (no conflict check, no
uninstall, no install, no config write, no priority write), so external
state is unchanged. -/
theorem C6_invalid_mode_rejected_before_any_effect
    (env : PluginEnv) (coll : PluginCollection) (options : ImportOptions)
    (h1 : options.import_mode ≠ "add") (h2 : options.import_mode ≠ "clean") :
    import_collection env coll options =
      (.error "import_mode must be add or clean", []) := by
  unfold import_collection
  have hc : (options.import_mode == "add" || options.import_mode == "clean")
      = false := by
    simp [h1, h2]
  simp [hc]

/-- Witness for C6 at `import_mode = "bogus"`. -/
theorem C6_witness :
    import_collection envEx collEx { import_mode := "bogus" } =
      (.error "import_mode must be add or clean", []) :=
  C6_invalid_mode_rejected_before_any_effect envEx collEx _
    (by decide) (by decide)

/-- C8: the sensitive filter is depth-bounded — for every input, once the
recursion depth exceeds `max_depth` the remaining subtree is returned
unmodified (no error, no truncation); and the concrete mapping nested 25
levels deep comes back with its deepest subtrees intact (the portion below
the depth bound, including its sensitive `api_key` leaf entry, is
unmodified) while the shallow level is still filtered (`token` is
dropped). -/
theorem C8_filter_depth_bound :
    (∀ (data : JValue) (depth max_depth : Nat), depth > max_depth →
       SensitiveFilter.filter_data data depth max_depth = data) ∧
    SensitiveFilter.filter_data deepDoc25 0 20 =
      JValue.obj [("level", deepNest 23)] := by
  constructor
  · intro data depth max_depth h
    cases data <;> simp [SensitiveFilter.filter_data, h]
  · rfl

/-- Witness for C8: the general depth-exceeded clause applied at depth 21
with the default bound 20. -/
theorem C8_witness :
    SensitiveFilter.filter_data (.str "sk-x") 21 20 = .str "sk-x" :=
  C8_filter_depth_bound.1 (.str "sk-x") 21 20 (by decide)

/-- C9: serialization always emits `schema_version`, `metadata` and
`plugins`; when `plugin_configs` (resp. `handler_priority_overrides`) is
absent (`None`), its key is omitted entirely from the output mapping. -/
theorem C9_to_dict_omits_absent_optionals (c : PluginCollection) :
    c.to_dict = JValue.obj c.toEntries ∧
    "schema_version" ∈ keysOf c.toEntries ∧
    "metadata" ∈ keysOf c.toEntries ∧
    "plugins" ∈ keysOf c.toEntries ∧
    (c.plugin_configs = JValue.null →
       "plugin_configs" ∉ keysOf c.toEntries) ∧
    (c.handler_priority_overrides = JValue.null →
       "handler_priority_overrides" ∉ keysOf c.toEntries) := by
  refine ⟨rfl, ?_, ?_, ?_, ?_, ?_⟩
  · simp [PluginCollection.toEntries, keysOf]
  · simp [PluginCollection.toEntries, keysOf]
  · simp [PluginCollection.toEntries, keysOf]
  · intro h
    cases hov : c.handler_priority_overrides.isNull <;>
      simp [PluginCollection.toEntries, keysOf, h, JValue.isNull, hov]
  · intro h
    cases hcf : c.plugin_configs.isNull <;>
      simp [PluginCollection.toEntries, keysOf, h, JValue.isNull, hcf]

/-- Witness for C9 on a collection with both optional fields absent. -/
theorem C9_witness :
    "plugin_configs" ∉ keysOf collEx.toEntries ∧
    "handler_priority_overrides" ∉ keysOf collEx.toEntries :=
  ⟨(C9_to_dict_omits_absent_optionals collEx).2.2.2.2.1 rfl,
   (C9_to_dict_omits_absent_optionals collEx).2.2.2.2.2 rfl⟩

theorem filterArrLoop_eq_map (xs : List JValue) (d m : Nat) :
    SensitiveFilter.filterArrLoop xs d m =
      xs.map fun v => SensitiveFilter.filter_data v (d + 1) m := by
  induction xs with
  | nil => rfl
  | cons v rest ih => simp [SensitiveFilter.filterArrLoop, ih]

/-- C10: within the depth bound, filtering a list gives a list of the same
length with elements filtered in place and never dropped; a sensitive string
element (at any nesting depth still within the bound) becomes `null` instead
of being omitted — unlike mapping entries. -/
theorem C10_list_filter_in_place (xs : List JValue) (d m : Nat) (hd : ¬ d > m) :
    SensitiveFilter.filter_data (.arr xs) d m =
      .arr (xs.map fun v => SensitiveFilter.filter_data v (d + 1) m) ∧
    (xs.map fun v => SensitiveFilter.filter_data v (d + 1) m).length
      = xs.length ∧
    (∀ s : String, ¬ d + 1 > m →
       SensitiveFilter.is_sensitive_value (.str s) = true →
       SensitiveFilter.filter_data (.str s) (d + 1) m = .null) := by
  refine ⟨?_, by simp, ?_⟩
  · simp [SensitiveFilter.filter_data, hd, filterArrLoop_eq_map]
  · intro s h1 h2
    simp [SensitiveFilter.filter_data, h1, h2]

/-- Witness for C10: a sensitive URL string inside a list is replaced by
`null` in place at the default depth. -/
theorem C10_witness :
    SensitiveFilter.filter_data (.arr [.str "http://x", .int 1]) 0 20 =
      .arr [.null, .int 1] := by
  have h := C10_list_filter_in_place [.str "http://x", .int 1] 0 20 (by decide)
  rw [h.1]
  rfl

theorem filterObjLoop_not_mem_keys (d m : Nat)
    (kvs acc : List (String × JValue)) (k : String)
    (hkvs : k ∉ keysOf kvs) (hacc : k ∉ keysOf acc) :
    k ∉ keysOf (SensitiveFilter.filterObjLoop kvs d m acc) := by
  induction kvs generalizing acc with
  | nil => simpa [SensitiveFilter.filterObjLoop] using hacc
  | cons hd tl ih =>
      obtain ⟨k₁, v₁⟩ := hd
      have hk₁ : k ≠ k₁ := by
        intro he
        exact hkvs (by simp [keysOf, he])
      have htl : k ∉ keysOf tl := by
        intro hmem
        exact hkvs (by simp [keysOf] at hmem ⊢; exact Or.inr hmem)
      by_cases h1 : SensitiveFilter.is_sensitive_key k₁
      · simpa [SensitiveFilter.filterObjLoop, h1] using ih _ htl hacc
      · by_cases h2 : SensitiveFilter.is_sensitive_value v₁
        · simpa [SensitiveFilter.filterObjLoop, h1, h2] using ih _ htl hacc
        · have hacc₁ :
              k ∉ keysOf (dictSet acc k₁
                (SensitiveFilter.filter_data v₁ (d + 1) m)) := by
            rw [mem_keysOf_dictSet]
            rintro (h | h)
            · exact hacc h
            · exact hk₁ h
          simpa [SensitiveFilter.filterObjLoop, h1, h2] using ih _ htl hacc₁

theorem filterObjLoop_drops_sensitive_key (d m : Nat)
    (kvs acc : List (String × JValue)) (k : String)
    (hsens : SensitiveFilter.is_sensitive_key k = true)
    (hacc : k ∉ keysOf acc) :
    k ∉ keysOf (SensitiveFilter.filterObjLoop kvs d m acc) := by
  induction kvs generalizing acc with
  | nil => simpa [SensitiveFilter.filterObjLoop] using hacc
  | cons hd tl ih =>
      obtain ⟨k₁, v₁⟩ := hd
      by_cases h1 : SensitiveFilter.is_sensitive_key k₁
      · simpa [SensitiveFilter.filterObjLoop, h1] using ih acc hacc
      · have hk₁ : k ≠ k₁ := by
          intro he
          rw [he] at hsens
          exact h1 hsens
        by_cases h2 : SensitiveFilter.is_sensitive_value v₁
        · simpa [SensitiveFilter.filterObjLoop, h1, h2] using ih acc hacc
        · have hacc₁ :
              k ∉ keysOf (dictSet acc k₁
                (SensitiveFilter.filter_data v₁ (d + 1) m)) := by
            rw [mem_keysOf_dictSet]
            rintro (h | h)
            · exact hacc h
            · exact hk₁ h
          simpa [SensitiveFilter.filterObjLoop, h1, h2] using ih _ hacc₁

theorem filterObjLoop_drops_sensitive_value (d m : Nat)
    (kvs acc : List (String × JValue)) (k : String) (v : JValue)
    (hnd : (keysOf kvs).Nodup) (hmem : (k, v) ∈ kvs)
    (hsens : SensitiveFilter.is_sensitive_value v = true)
    (hacc : k ∉ keysOf acc) :
    k ∉ keysOf (SensitiveFilter.filterObjLoop kvs d m acc) := by
  induction kvs generalizing acc with
  | nil => simp at hmem
  | cons hd tl ih =>
      obtain ⟨k₁, v₁⟩ := hd
      have hcons : (k₁ :: keysOf tl).Nodup := by
        simpa [keysOf] using hnd
      have hhead : k₁ ∉ keysOf tl := (List.nodup_cons.mp hcons).1
      have hnd' : (keysOf tl).Nodup := (List.nodup_cons.mp hcons).2
      rcases List.mem_cons.mp hmem with heq | htl
      · injection heq with ha hb
        subst ha; subst hb
        by_cases h1 : SensitiveFilter.is_sensitive_key k
        · exact filterObjLoop_drops_sensitive_key d m _ acc k (by simpa using h1) hacc
        · simp only [SensitiveFilter.filterObjLoop, h1, Bool.false_eq_true,
            if_false, hsens, if_true]
          exact filterObjLoop_not_mem_keys d m tl acc k hhead hacc
      · have hk₁ : k ≠ k₁ := by
          intro he
          subst he
          exact hhead (by simpa [keysOf] using List.mem_map_of_mem Prod.fst htl)
        by_cases h1 : SensitiveFilter.is_sensitive_key k₁
        · simpa [SensitiveFilter.filterObjLoop, h1] using ih _ hnd' htl hacc
        · by_cases h2 : SensitiveFilter.is_sensitive_value v₁
          · simpa [SensitiveFilter.filterObjLoop, h1, h2] using ih _ hnd' htl hacc
          · have hacc₁ :
                k ∉ keysOf (dictSet acc k₁
                  (SensitiveFilter.filter_data v₁ (d + 1) m)) := by
              rw [mem_keysOf_dictSet]
              rintro (h | h)
              · exact hacc h
              · exact hk₁ h
            simpa [SensitiveFilter.filterObjLoop, h1, h2] using ih _ hnd' htl hacc₁

theorem filterObjLoop_preserves (d m : Nat)
    (kvs acc : List (String × JValue)) (k : String) (x : JValue)
    (hacc : (k, x) ∈ acc) (hkvs : k ∉ keysOf kvs) :
    (k, x) ∈ SensitiveFilter.filterObjLoop kvs d m acc := by
  induction kvs generalizing acc with
  | nil => simpa [SensitiveFilter.filterObjLoop] using hacc
  | cons hd tl ih =>
      obtain ⟨k₁, v₁⟩ := hd
      have hk₁ : k ≠ k₁ := by
        intro he
        exact hkvs (by simp [keysOf, he])
      have htl : k ∉ keysOf tl := by
        intro hmem
        exact hkvs (by simp [keysOf] at hmem ⊢; exact Or.inr hmem)
      by_cases h1 : SensitiveFilter.is_sensitive_key k₁
      · simpa [SensitiveFilter.filterObjLoop, h1] using ih _ hacc htl
      · by_cases h2 : SensitiveFilter.is_sensitive_value v₁
        · simpa [SensitiveFilter.filterObjLoop, h1, h2] using ih _ hacc htl
        · have hacc₁ :
              (k, x) ∈ dictSet acc k₁
                (SensitiveFilter.filter_data v₁ (d + 1) m) :=
            mem_dictSet_of_ne _ hacc hk₁
          simpa [SensitiveFilter.filterObjLoop, h1, h2] using ih _ hacc₁ htl

theorem filterObjLoop_keeps (d m : Nat)
    (kvs acc : List (String × JValue)) (k : String) (v : JValue)
    (hnd : (keysOf kvs).Nodup) (hmem : (k, v) ∈ kvs)
    (hkey : SensitiveFilter.is_sensitive_key k = false)
    (hval : SensitiveFilter.is_sensitive_value v = false) :
    (k, SensitiveFilter.filter_data v (d + 1) m) ∈
      SensitiveFilter.filterObjLoop kvs d m acc := by
  induction kvs generalizing acc with
  | nil => simp at hmem
  | cons hd tl ih =>
      obtain ⟨k₁, v₁⟩ := hd
      have hcons : (k₁ :: keysOf tl).Nodup := by
        simpa [keysOf] using hnd
      have hhead : k₁ ∉ keysOf tl := (List.nodup_cons.mp hcons).1
      have hnd' : (keysOf tl).Nodup := (List.nodup_cons.mp hcons).2
      rcases List.mem_cons.mp hmem with heq | htl
      · injection heq with ha hb
        subst ha; subst hb
        simp only [SensitiveFilter.filterObjLoop, hkey, Bool.false_eq_true,
          if_false, hval]
        exact filterObjLoop_preserves d m tl _ k _
          (mem_dictSet_self acc k _) hhead
      · have hk₁ : k ≠ k₁ := by
          intro he
          subst he
          exact hhead (by simpa [keysOf] using List.mem_map_of_mem Prod.fst htl)
        by_cases h1 : SensitiveFilter.is_sensitive_key k₁
        · simpa [SensitiveFilter.filterObjLoop, h1] using ih _ hnd' htl
        · by_cases h2 : SensitiveFilter.is_sensitive_value v₁
          · simpa [SensitiveFilter.filterObjLoop, h1, h2] using ih _ hnd' htl
          · simpa [SensitiveFilter.filterObjLoop, h1, h2] using ih _ hnd' htl

theorem filterObjLoop_sound (d m : Nat)
    (kvs acc : List (String × JValue)) (k : String) (x : JValue)
    (hmem : (k, x) ∈ SensitiveFilter.filterObjLoop kvs d m acc) :
    (k, x) ∈ acc ∨
      ∃ v, (k, v) ∈ kvs ∧ SensitiveFilter.is_sensitive_key k = false ∧
        SensitiveFilter.is_sensitive_value v = false ∧
        x = SensitiveFilter.filter_data v (d + 1) m := by
  induction kvs generalizing acc with
  | nil => exact Or.inl (by simpa [SensitiveFilter.filterObjLoop] using hmem)
  | cons hd tl ih =>
      obtain ⟨k₁, v₁⟩ := hd
      by_cases h1 : SensitiveFilter.is_sensitive_key k₁
      · rw [SensitiveFilter.filterObjLoop, if_pos h1] at hmem
        rcases ih _ hmem with hl | ⟨v, hv, h3, h4, h5⟩
        · exact Or.inl hl
        · exact Or.inr ⟨v, List.mem_cons.mpr (Or.inr hv), h3, h4, h5⟩
      · by_cases h2 : SensitiveFilter.is_sensitive_value v₁
        · rw [SensitiveFilter.filterObjLoop, if_neg (by simp [h1]),
            if_pos h2] at hmem
          rcases ih _ hmem with hl | ⟨v, hv, h3, h4, h5⟩
          · exact Or.inl hl
          · exact Or.inr ⟨v, List.mem_cons.mpr (Or.inr hv), h3, h4, h5⟩
        · rw [SensitiveFilter.filterObjLoop, if_neg (by simp [h1]),
            if_neg (by simp [h2])] at hmem
          rcases ih _ hmem with hl | ⟨v, hv, h3, h4, h5⟩
          · rcases mem_of_mem_dictSet hl with hin | ⟨he1, he2⟩
            · exact Or.inl hin
            · subst he1
              exact Or.inr ⟨v₁, List.mem_cons.mpr (Or.inl rfl),
                by simpa using h1, by simpa using h2, he2⟩
          · exact Or.inr ⟨v, List.mem_cons.mpr (Or.inr hv), h3, h4, h5⟩

/-- C2: for every mapping passed to the sensitive filter (at the default
depth 0 / bound 20), every entry whose key is sensitive or whose value is
sensitive is absent from the filtered result — dropped entirely, with no
placeholder under its key — while every non-dropped entry is kept with its
value recursively filtered, and everything in the result stems from such a
kept entry. -/
theorem C2_mapping_drops_and_keeps (kvs : List (String × JValue))
    (hnd : (keysOf kvs).Nodup) (k : String) (v : JValue)
    (hmem : (k, v) ∈ kvs) :
    SensitiveFilter.filter_data (.obj kvs) 0 20 =
      .obj (SensitiveFilter.filterObjLoop kvs 0 20 []) ∧
    (SensitiveFilter.is_sensitive_key k = true →
       k ∉ keysOf (SensitiveFilter.filterObjLoop kvs 0 20 [])) ∧
    (SensitiveFilter.is_sensitive_value v = true →
       k ∉ keysOf (SensitiveFilter.filterObjLoop kvs 0 20 [])) ∧
    (SensitiveFilter.is_sensitive_key k = false →
       SensitiveFilter.is_sensitive_value v = false →
       (k, SensitiveFilter.filter_data v 1 20) ∈
         SensitiveFilter.filterObjLoop kvs 0 20 []) ∧
    (∀ (k' : String) (x : JValue),
       (k', x) ∈ SensitiveFilter.filterObjLoop kvs 0 20 [] →
       ∃ v', (k', v') ∈ kvs ∧ SensitiveFilter.is_sensitive_key k' = false ∧
         SensitiveFilter.is_sensitive_value v' = false ∧
         x = SensitiveFilter.filter_data v' 1 20) := by
  refine ⟨by simp [SensitiveFilter.filter_data], ?_, ?_, ?_, ?_⟩
  · intro hs
    exact filterObjLoop_drops_sensitive_key 0 20 kvs [] k hs (by simp [keysOf])
  · intro hs
    exact filterObjLoop_drops_sensitive_value 0 20 kvs [] k v hnd hmem hs
      (by simp [keysOf])
  · intro h1 h2
    exact filterObjLoop_keeps 0 20 kvs [] k v hnd hmem h1 h2
  · intro k' x hx
    rcases filterObjLoop_sound 0 20 kvs [] k' x hx with hl | hr
    · simp at hl
    · exact hr

/-- Witness for C2: `"api_key"` (sensitive key) and `"note" ↦ "sk-abc123"`
(sensitive value under a non-sensitive key) are both dropped, while the
benign `"memo"` entry is kept. -/
theorem C2_witness :
    "api_key" ∉ keysOf (SensitiveFilter.filterObjLoop
      [("api_key", .str "x"), ("note", .str "sk-abc123"),
       ("memo", .str "hello")] 0 20 []) ∧
    "note" ∉ keysOf (SensitiveFilter.filterObjLoop
      [("api_key", .str "x"), ("note", .str "sk-abc123"),
       ("memo", .str "hello")] 0 20 []) ∧
    ("memo", SensitiveFilter.filter_data (.str "hello") 1 20) ∈
      SensitiveFilter.filterObjLoop
      [("api_key", .str "x"), ("note", .str "sk-abc123"),
       ("memo", .str "hello")] 0 20 [] := by
  refine ⟨?_, ?_, ?_⟩
  · exact (C2_mapping_drops_and_keeps _ (by decide) "api_key" (.str "x")
      (by simp)).2.1 (by decide)
  · exact (C2_mapping_drops_and_keeps _ (by decide) "note" (.str "sk-abc123")
      (by simp)).2.2.1 (by decide)
  · exact (C2_mapping_drops_and_keeps _ (by decide) "memo" (.str "hello")
      (by simp)).2.2.2.1 (by decide) (by decide)

theorem import_collection_trace (env : PluginEnv) (coll : PluginCollection)
    (options : ImportOptions)
    (hmode : options.import_mode = "add" ∨ options.import_mode = "clean") :
    (import_collection env coll options).2 =
      [Effect.checkConflicts (coll.plugins.map CollectionPlugin.name)] ++
      (if options.import_mode == "clean" then
        uninstallTargets env.stars (coll.plugins.map CollectionPlugin.name)
       else []).map (fun p => Effect.uninstall p.name) ++
      (coll.plugins.filter fun p =>
        !(options.import_mode == "add" &&
          (env.stars.map StarInfo.name).contains p.name)).map
        (fun p => Effect.install p.repo options.proxy) ++
      (configPhaseTop env options (env.stars.map StarInfo.name) coll).2 ++
      (match priorityPhase env options coll with
       | .inl pr => pr.2
       | .inr () => []) := by
  have hc : (options.import_mode == "add" || options.import_mode == "clean")
      = true := by
    rcases hmode with h | h <;> simp [h]
  unfold import_collection
  rw [hc]
  cases hp : priorityPhase env options coll with
  | inl pr => simp [hp]
  | inr u => cases u; simp [hp]

theorem uninstallCalls_append (a b : List Effect) :
    uninstallCalls (a ++ b) = uninstallCalls a ++ uninstallCalls b := by
  simp [uninstallCalls]

theorem uninstallCalls_map_install (l : List CollectionPlugin) (proxy : String) :
    uninstallCalls (l.map fun p => Effect.install p.repo proxy) = [] := by
  induction l with
  | nil => rfl
  | cons p rest ih => simpa [uninstallCalls, List.filter] using ih

theorem uninstallCalls_map_uninstall (l : List StarInfo) :
    uninstallCalls (l.map fun p => Effect.uninstall p.name) =
      l.map fun p => Effect.uninstall p.name := by
  induction l with
  | nil => rfl
  | cons p rest ih => simpa [uninstallCalls, List.filter] using ih

theorem uninstallCalls_configStep (env : PluginEnv) (options : ImportOptions)
    (before : List String) (pname : String) (cfg : JValue) :
    uninstallCalls (configStep env options before pname cfg).2 = [] := by
  unfold configStep
  repeat' split
  all_goals simp [uninstallCalls, List.filter]

theorem uninstallCalls_configPhase (env : PluginEnv) (options : ImportOptions)
    (before : List String) (entries : List (String × JValue)) :
    uninstallCalls (configPhase env options before entries).2 = [] := by
  induction entries with
  | nil => rfl
  | cons e rest ih =>
      obtain ⟨pname, cfg⟩ := e
      rw [configPhase]
      rw [show (configStep env options before pname cfg,
            configPhase env options before rest).1.2 ++
            (configStep env options before pname cfg,
            configPhase env options before rest).2.2 =
          (configStep env options before pname cfg).2 ++
            (configPhase env options before rest).2 from rfl]
      rw [uninstallCalls_append, uninstallCalls_configStep, ih]
      rfl

theorem uninstallCalls_configPhaseTop (env : PluginEnv)
    (options : ImportOptions) (before : List String)
    (coll : PluginCollection) :
    uninstallCalls (configPhaseTop env options before coll).2 = [] := by
  unfold configPhaseTop
  repeat' split
  all_goals first
    | rfl
    | exact uninstallCalls_configPhase env options before _

theorem priorityPhase_inl_trace (env : PluginEnv) (options : ImportOptions)
    (coll : PluginCollection) (pr : Bool × List Effect)
    (hp : priorityPhase env options coll = .inl pr) :
    pr.2 = [] ∨ ∃ ov, pr.2 = [Effect.priorityWrite ov] := by
  unfold priorityPhase at hp
  repeat' split at hp
  all_goals first
    | (injection hp with h; subst h; simp)
    | (injection hp with h; subst h; right; exact ⟨_, rfl⟩)
    | cases hp

theorem uninstallCalls_priorityArm (env : PluginEnv)
    (options : ImportOptions) (coll : PluginCollection) :
    uninstallCalls (match priorityPhase env options coll with
      | .inl pr => pr.2
      | .inr () => []) = [] := by
  cases hp : priorityPhase env options coll with
  | inl pr =>
      rcases priorityPhase_inl_trace env options coll pr hp with h | ⟨ov, h⟩ <;>
        simp [h, uninstallCalls, List.filter]
  | inr u => cases u; rfl

/-- C4: with `import_mode = clean`, the importer attempts uninstall for
exactly the installed, non-reserved, named plugins whose name is not in the
document's plugin-name set, in registry order; in particular reserved
plugins are never uninstalled. -/
theorem C4_clean_uninstall_set (env : PluginEnv) (coll : PluginCollection)
    (options : ImportOptions) (hmode : options.import_mode = "clean") :
    uninstallCalls (import_collection env coll options).2 =
      (uninstallTargets env.stars
        (coll.plugins.map CollectionPlugin.name)).map
        (fun p => Effect.uninstall p.name) ∧
    ∀ p : StarInfo,
      p ∈ uninstallTargets env.stars (coll.plugins.map CollectionPlugin.name) ↔
        p ∈ env.stars ∧ p.reserved = false ∧ p.name ≠ "" ∧
          p.name ∉ coll.plugins.map CollectionPlugin.name := by
  constructor
  · rw [import_collection_trace env coll options (Or.inr hmode)]
    rw [uninstallCalls_append, uninstallCalls_append, uninstallCalls_append,
      uninstallCalls_append]
    rw [uninstallCalls_configPhaseTop, uninstallCalls_priorityArm]
    rw [hmode]
    simp only [beq_self_eq_true, if_true]
    rw [uninstallCalls_map_uninstall, uninstallCalls_map_install]
    simp [uninstallCalls]
  · intro p
    simp [uninstallTargets, List.mem_filter, and_assoc]

/-- Witness for C4: installed `\x7bA, B, C(reserved)\x7d`, document `\x7bA\x7d`
gives uninstall-attempt list `[B]` exactly. -/
theorem C4_witness :
    uninstallCalls (import_collection envEx collEx
      { import_mode := "clean" }).2 = [Effect.uninstall "B"] := by
  have h := (C4_clean_uninstall_set envEx collEx
    { import_mode := "clean" } rfl).1
  rw [h]
  rfl

theorem configStep_skip (env : PluginEnv) (options : ImportOptions)
    (before : List String) (p : String) (cfg : JValue)
    (hmode : options.import_mode = "add")
    (how : options.overwrite_existing_configs = false)
    (hb : before.contains p = true) :
    configStep env options before p cfg = (0, []) := by
  unfold configStep
  repeat' split
  any_goals rfl
  all_goals exfalso; simp_all [hmode, how, hb]

theorem configStep_effects_name (env : PluginEnv) (options : ImportOptions)
    (before : List String) (pname : String) (cfg : JValue) (e : Effect)
    (he : e ∈ (configStep env options before pname cfg).2) :
    (∃ c, e = Effect.saveConfig pname c) ∨ e = Effect.reloadPlugin pname := by
  unfold configStep at he
  repeat' split at he
  all_goals simp at he
  all_goals first
    | exact Or.inl ⟨_, he⟩
    | (rcases he with h | h
       · exact Or.inl ⟨_, h⟩
       · exact Or.inr h)

theorem configPhase_no_touch (env : PluginEnv) (options : ImportOptions)
    (before : List String) (p : String) (entries : List (String × JValue))
    (hmode : options.import_mode = "add")
    (how : options.overwrite_existing_configs = false)
    (hb : before.contains p = true) :
    ∀ e ∈ (configPhase env options before entries).2,
      (∀ c, e ≠ Effect.saveConfig p c) ∧ e ≠ Effect.reloadPlugin p := by
  induction entries with
  | nil => intro e he; simp [configPhase] at he
  | cons hd tl ih =>
      obtain ⟨pname, cfg⟩ := hd
      intro e he
      rw [configPhase] at he
      rw [show (configStep env options before pname cfg,
            configPhase env options before tl).1.2 ++
            (configStep env options before pname cfg,
            configPhase env options before tl).2.2 =
          (configStep env options before pname cfg).2 ++
            (configPhase env options before tl).2 from rfl] at he
      rcases List.mem_append.mp he with h1 | h2
      · by_cases hpq : pname = p
        · subst hpq
          rw [configStep_skip env options before pname cfg hmode how hb] at h1
          simp at h1
        · rcases configStep_effects_name env options before pname cfg e h1 with
            ⟨c, hc⟩ | hr
          · subst hc
            constructor
            · intro c' hcc
              injection hcc with hn _
              exact hpq hn
            · intro hcc
              cases hcc
          · subst hr
            constructor
            · intro c' hcc
              cases hcc
            · intro hcc
              injection hcc with hn
              exact hpq hn
      · exact ih e h2

/-- C7: when `import_mode = add` and `overwrite_existing_configs = false`,
a plugin that was already installed before the run is never persisted or
reloaded by the config-merge phase (nor any other phase): no `save_config`
and no `reload` call for it appears in the trace, whatever configuration the
document carries under its name. -/
theorem C7_add_no_overwrite_keeps_existing_config (env : PluginEnv)
    (coll : PluginCollection) (options : ImportOptions) (p : String)
    (hmode : options.import_mode = "add")
    (how : options.overwrite_existing_configs = false)
    (hp : p ∈ env.stars.map StarInfo.name) :
    (∀ c, Effect.saveConfig p c ∉ (import_collection env coll options).2) ∧
    Effect.reloadPlugin p ∉ (import_collection env coll options).2 := by
  have hb : (env.stars.map StarInfo.name).contains p = true := by simpa using hp
  have htr := import_collection_trace env coll options (Or.inl hmode)
  have hall : ∀ e ∈ (import_collection env coll options).2,
      (∀ c, e ≠ Effect.saveConfig p c) ∧ e ≠ Effect.reloadPlugin p := by
    intro e he
    rw [htr] at he
    simp only [List.mem_append] at he
    rcases he with ((((h1 | h2) | h3) | h4) | h5)
    · simp at h1
      subst h1
      exact ⟨fun c h => Effect.noConfusion h, fun h => Effect.noConfusion h⟩
    · rw [hmode] at h2
      simp at h2
    · rcases List.mem_map.mp h3 with ⟨q, _, hq⟩
      subst hq
      exact ⟨fun c h => Effect.noConfusion h, fun h => Effect.noConfusion h⟩
    · unfold configPhaseTop at h4
      split at h4
      · split at h4
        · exact configPhase_no_touch env options _ p _ hmode how hb e h4
        · simp at h4
      · simp at h4
    · cases hpp : priorityPhase env options coll with
      | inl pr =>
          rw [hpp] at h5
          have h5a : e ∈ pr.2 := h5
          rcases priorityPhase_inl_trace env options coll pr hpp with
            hz | ⟨ov, hz⟩ <;> rw [hz] at h5a
          · simp at h5a
          · simp at h5a
            subst h5a
            exact ⟨fun c h => Effect.noConfusion h,
              fun h => Effect.noConfusion h⟩
      | inr u =>
          cases u
          rw [hpp] at h5
          have h5a : e ∈ ([] : List Effect) := h5
          simp at h5a
  exact ⟨fun c hc => ((hall _ hc).1 c) rfl, fun hc => (hall _ hc).2 rfl⟩

/-- Witness for C7: importing `collC7` in add mode without overwrite leaves
the installed plugin `A`'s configuration untouched. -/
theorem C7_witness :
    (∀ c, Effect.saveConfig "A" c ∉
       (import_collection envC7 collC7
         { import_mode := "add", overwrite_existing_configs := false }).2) ∧
    Effect.reloadPlugin "A" ∉
      (import_collection envC7 collC7
        { import_mode := "add", overwrite_existing_configs := false }).2 :=
  C7_add_no_overwrite_keeps_existing_config envC7 collC7
    { import_mode := "add", overwrite_existing_configs := false } "A"
    rfl rfl (by simp [envC7, starsABC])

theorem descByPriority_of_pairwise :
    ∀ hs : List Handler,
      List.Pairwise
        (fun a b => (sortKeyOf b).getD 0 ≤ (sortKeyOf a).getD 0) hs →
      descByPriority hs = true
  | [], _ => rfl
  | [_], _ => rfl
  | a :: b :: rest, h => by
      rcases List.pairwise_cons.mp h with ⟨ha, htl⟩
      rw [descByPriority]
      simp only [Bool.and_eq_true, decide_eq_true_eq]
      exact ⟨ha b (by simp), descByPriority_of_pairwise (b :: rest) htl⟩

/-- C3 counterexample: with the key-value write failing, two handlers that
share priority 5 make the fallback succeed (`true` is returned) while the
resulting registry order is NOT strictly descending by priority. -/
theorem C3_counterexample_equal_priorities :
    (apply_priority_overrides false [] regEqualPrio).1 = true ∧
    strictlyDescByPriority
      (apply_priority_overrides false [] regEqualPrio).2 = false :=
  ⟨rfl, rfl⟩

/-- C3 (amended): when the key-value store write fails,
`apply_priority_overrides` returns true exactly when the fallback
mutation-and-resort succeeds (it returns false only when the re-sort key
raises), and whenever it returns true via the fallback the registry's
handler order is non-increasing — descending with ties allowed — by
priority (strict descent fails when two handlers share a priority). -/
theorem C3_fallback_sort_descending (overrides : List (String × Int))
    (registry : List Handler) :
    ((apply_priority_overrides false overrides registry).1 = true ↔
      trySortHandlers (applyMutations registry (normalizeOverrides overrides))
        ≠ none) ∧
    ((apply_priority_overrides false overrides registry).1 = true →
      descByPriority (apply_priority_overrides false overrides registry).2
        = true) := by
  unfold apply_priority_overrides
  simp only [Bool.false_eq_true, if_false]
  cases hts : trySortHandlers (applyMutations registry
      (normalizeOverrides overrides)) with
  | none => simp
  | some sorted =>
      simp only [Option.some_ne_none, iff_true, ne_eq, not_false_eq_true,
        true_and]
      intro _
      unfold trySortHandlers at hts
      split at hts
      · injection hts with hs
        subst hs
        refine descByPriority_of_pairwise _ ?_
        have := @List.sorted_insertionSort Handler
          (fun a b => (sortKeyOf b).getD 0 ≤ (sortKeyOf a).getD 0)
          (fun a b => inferInstance)
          ⟨fun a b => le_total _ _⟩
          ⟨fun a b c hab hbc => le_trans hbc hab⟩
          (applyMutations registry (normalizeOverrides overrides))
        exact this
      · cases hts

/-- Witness for C3 (amended): the fallback on the equal-priority registry
returns true and the result is non-increasing by priority. -/
theorem C3_witness :
    descByPriority (apply_priority_overrides false [] regEqualPrio).2
      = true :=
  (C3_fallback_sort_descending [] regEqualPrio).2 rfl

theorem charListLt_asymm :
    ∀ a b : List Char, charListLt a b = true → charListLt b a = true → False
  | [], [], h1, _ => by simp [charListLt] at h1
  | [], _ :: _, _, h2 => by simp [charListLt] at h2
  | _ :: _, [], h1, _ => by simp [charListLt] at h1
  | c :: cs, d :: ds, h1, h2 => by
      simp only [charListLt, Bool.or_eq_true, Bool.and_eq_true,
        decide_eq_true_eq] at h1 h2
      rcases h1 with h1 | ⟨he1, h1⟩
      · rcases h2 with h2 | ⟨he2, h2⟩
        · exact absurd h2 (lt_asymm h1)
        · subst he2
          exact lt_irrefl _ h1
      · subst he1
        rcases h2 with h2 | ⟨_, h2⟩
        · exact lt_irrefl _ h2
        · exact charListLt_asymm cs ds h1 h2

theorem charListLt_trans :
    ∀ a b c : List Char, charListLt a b = true → charListLt b c = true →
      charListLt a c = true
  | _, [], [], _, h2 => by simp [charListLt] at h2
  | [], _ :: _, [], _, h2 => by simp [charListLt] at h2
  | _ :: _, _ :: _, [], _, h2 => by simp [charListLt] at h2
  | [], [], _ :: _, h1, _ => by simp [charListLt]
  | [], _ :: _, _ :: _, _, _ => by simp [charListLt]
  | _ :: _, [], _ :: _, h1, _ => by simp [charListLt] at h1
  | c₁ :: t₁, c₂ :: t₂, c₃ :: t₃, h1, h2 => by
      simp only [charListLt, Bool.or_eq_true, Bool.and_eq_true,
        decide_eq_true_eq] at h1 h2 ⊢
      rcases h1 with h1 | ⟨he1, h1⟩
      · rcases h2 with h2 | ⟨he2, h2⟩
        · exact Or.inl (lt_trans h1 h2)
        · subst he2
          exact Or.inl h1
      · subst he1
        rcases h2 with h2 | ⟨he2, h2⟩
        · exact Or.inl h2
        · subst he2
          exact Or.inr ⟨rfl, charListLt_trans _ _ _ h1 h2⟩

theorem charListLt_total_of_ne :
    ∀ a b : List Char, a ≠ b →
      charListLt a b = true ∨ charListLt b a = true
  | [], [], h => absurd rfl h
  | [], _ :: _, _ => Or.inl (by simp [charListLt])
  | _ :: _, [], _ => Or.inr (by simp [charListLt])
  | c :: cs, d :: ds, h => by
      by_cases hc : c = d
      · subst hc
        have hne : cs ≠ ds := by
          intro he
          exact h (by rw [he])
        rcases charListLt_total_of_ne cs ds hne with h1 | h1
        · exact Or.inl (by simp [charListLt, h1])
        · exact Or.inr (by simp [charListLt, h1])
      · rcases lt_or_gt_of_ne hc with h1 | h1
        · exact Or.inl (by simp [charListLt, h1])
        · exact Or.inr (by simp [charListLt, h1])

theorem pcLt_asymm (a b : PathComp) (h1 : pcLt a b = true)
    (h2 : pcLt b a = true) : False := by
  cases a <;> cases b <;> simp [pcLt] at h1 h2
  · exact charListLt_asymm _ _ h1 h2
  · exact absurd h2 (lt_asymm h1)

theorem pcLt_trans (a b c : PathComp) (h1 : pcLt a b = true)
    (h2 : pcLt b c = true) : pcLt a c = true := by
  cases a <;> cases b <;> cases c <;> simp [pcLt] at h1 h2 ⊢
  · exact charListLt_trans _ _ _ h1 h2
  · exact lt_trans h1 h2

theorem pcLt_total_of_ne (a b : PathComp) (h : a ≠ b) :
    pcLt a b = true ∨ pcLt b a = true := by
  cases a with
  | str s =>
      cases b with
      | str t =>
          have hne : s.data ≠ t.data := by
            intro he
            apply h
            have hst : s = t := by
              cases s; cases t
              exact congrArg String.mk (by simpa using he)
            rw [hst]
          simpa [pcLt] using charListLt_total_of_ne s.data t.data hne
      | idx n => exact Or.inr (by simp [pcLt])
  | idx m =>
      cases b with
      | str t => exact Or.inl (by simp [pcLt])
      | idx n =>
          have hne : m ≠ n := by
            intro he
            exact h (by rw [he])
          rcases Nat.lt_or_ge m n with h1 | h1
          · exact Or.inl (by simp [pcLt, h1])
          · rcases Nat.lt_or_ge n m with h2 | h2
            · exact Or.inr (by simp [pcLt, h2])
            · exact absurd (le_antisymm h1 h2).symm hne

theorem pathLe_trans :
    ∀ a b c : List PathComp, pathLe a b = true → pathLe b c = true →
      pathLe a c = true
  | [], _, _, _, _ => by simp [pathLe]
  | _ :: _, [], _, h1, _ => by simp [pathLe] at h1
  | _ :: _, _ :: _, [], _, h2 => by simp [pathLe] at h2
  | a :: as₁, b :: bs₁, c :: cs₁, h1, h2 => by
      by_cases hab : a = b
      · subst hab
        rw [pathLe, if_pos rfl] at h1
        by_cases hac : a = c
        · subst hac
          rw [pathLe, if_pos rfl] at h2 ⊢
          exact pathLe_trans _ _ _ h1 h2
        · rw [pathLe, if_neg hac] at h2 ⊢
          exact h2
      · rw [pathLe, if_neg hab] at h1
        by_cases hbc : b = c
        · subst hbc
          rw [pathLe, if_neg hab]
          exact h1
        · rw [pathLe, if_neg hbc] at h2
          by_cases hac : a = c
          · subst hac
            exact absurd h2 (fun h => pcLt_asymm _ _ h1 h)
          · rw [pathLe, if_neg hac]
            exact pcLt_trans _ _ _ h1 h2

theorem pathLe_total :
    ∀ a b : List PathComp, pathLe a b = true ∨ pathLe b a = true
  | [], _ => Or.inl (by simp [pathLe])
  | _ :: _, [] => Or.inr (by simp [pathLe])
  | a :: as₁, b :: bs₁ => by
      by_cases hab : a = b
      · subst hab
        rw [pathLe, if_pos rfl, pathLe, if_pos rfl]
        exact pathLe_total as₁ bs₁
      · rw [pathLe, if_neg hab, pathLe, if_neg (Ne.symm hab)]
        exact pcLt_total_of_ne a b hab

/-- C5: the validator reports all violations together: for every input the
error list produced by `validate_dict` is sorted by location path, and the
concrete document missing `metadata.author` that also carries an unknown
top-level key yields exactly the two expected errors (≥ 2, not just the
first), each annotated with its location and message, joined in path
order. -/
theorem C5_validate_reports_all_sorted :
    (∀ data : JValue,
       List.Pairwise (fun e₁ e₂ => pathLe e₁.path e₂.path = true)
         (sortErrors (rawErrors data))) ∧
    sortErrors (rawErrors c5doc) =
      [⟨[], "Additional properties are not allowed (\x27bogus_key_zzz\x27 unexpected)"⟩,
       ⟨[.str "metadata"], "\x27author\x27 is a required property"⟩] ∧
    validate_dict c5doc = .error
      ("Additional properties are not allowed (\x27bogus_key_zzz\x27 unexpected); " ++
       "metadata: \x27author\x27 is a required property") := by
  refine ⟨?_, rfl, rfl⟩
  intro data
  exact @List.sorted_insertionSort VErr
    (fun e₁ e₂ => pathLe e₁.path e₂.path = true)
    (fun e₁ e₂ => inferInstance)
    ⟨fun e₁ e₂ => pathLe_total e₁.path e₂.path⟩
    ⟨fun e₁ e₂ e₃ => pathLe_trans e₁.path e₂.path e₃.path⟩
    (rawErrors data)

/-- Witness for C5: the sortedness clause applied to the concrete document. -/
theorem C5_witness :
    List.Pairwise (fun e₁ e₂ => pathLe e₁.path e₂.path = true)
      (sortErrors (rawErrors c5doc)) :=
  C5_validate_reports_all_sorted.1 c5doc

theorem plugin_roundtrip (p : CollectionPlugin) :
    CollectionPlugin.from_dict p.to_dict = some p := by
  cases p with
  | mk name repo version display_name =>
      cases display_name with
      | none =>
          simp [CollectionPlugin.to_dict, CollectionPlugin.from_dict,
            pyGetD, lookupKv, pyStr]
      | some d =>
          simp [CollectionPlugin.to_dict, CollectionPlugin.from_dict,
            pyGetD, lookupKv, pyStr]

theorem metadata_roundtrip (m : CollectionMetadata) :
    CollectionMetadata.from_dict m.to_dict = some m := by
  cases m with
  | mk name description author version created_at astrbot_version plugin_count =>
      simp [CollectionMetadata.to_dict, CollectionMetadata.from_dict,
        pyGetD, lookupKv, pyStr, pyIntCoerce_int]

theorem mapM_loop_plugins (ps : List CollectionPlugin)
    (acc : List CollectionPlugin) :
    List.mapM.loop CollectionPlugin.from_dict
      (ps.map CollectionPlugin.to_dict) acc = some (acc.reverse ++ ps) := by
  induction ps generalizing acc with
  | nil => simp [List.mapM.loop]
  | cons p rest ih =>
      simp [List.mapM.loop, plugin_roundtrip, ih]

theorem plugins_roundtrip (ps : List CollectionPlugin) :
    (ps.map CollectionPlugin.to_dict).mapM CollectionPlugin.from_dict
      = some ps := by
  simpa [List.mapM] using mapM_loop_plugins ps []

/-- C1: every payload produced by `export` with default options
(`include_configs` and `include_priority` true, no exclusions) passes schema
validation, and re-parsing it yields a collection equal to the one the
exporter assembled: `from_dict (to_dict coll) = coll`. -/
theorem C1_export_roundtrip (opts : ExportOptions) (stars : List StarInfo)
    (overrides : List (String × Int)) (createdAt ver : String)
    (payload : JValue)
    (hic : opts.include_configs = true) (hip : opts.include_priority = true)
    (hex : opts.exclude_plugins = none)
    (hok : export_payload opts stars overrides createdAt ver = .ok payload) :
    payload = (exportCollection opts stars overrides createdAt ver).to_dict ∧
    validate_dict payload = .ok () ∧
    PluginCollection.from_dict payload =
      .ok (exportCollection opts stars overrides createdAt ver) := by
  unfold export_payload at hok
  dsimp only at hok
  cases hval : validate_dict
      (exportCollection opts stars overrides createdAt ver).to_dict with
  | error e => rw [hval] at hok; cases hok
  | ok u =>
      cases u
      rw [hval] at hok
      injection hok with hpay
      subst hpay
      refine ⟨rfl, hval, ?_⟩
      unfold PluginCollection.from_dict
      rw [hval]
      simp only [PluginCollection.to_dict, PluginCollection.toEntries,
        exportCollection, hic, hip, if_true, JValue.isNull]
      simp [pyGetD, lookupKv, pyStr, metadata_roundtrip, pyIterList_arr,
        plugins_roundtrip, pyIntCoerce_int, mapM_loop_plugins]

/-- Witness for C1: a concrete two-star state (one exportable with a config
that gets filtered, one repo-less and skipped) exports, re-validates and
re-parses to the same collection. -/
theorem C1_witness :
    validate_dict
      (exportCollection exOptsW exStarsW [("h1", 5)] "t" "v").to_dict =
      .ok () ∧
    PluginCollection.from_dict
      (exportCollection exOptsW exStarsW [("h1", 5)] "t" "v").to_dict =
      .ok (exportCollection exOptsW exStarsW [("h1", 5)] "t" "v") := by
  have h := C1_export_roundtrip exOptsW exStarsW [("h1", 5)] "t" "v"
    ((exportCollection exOptsW exStarsW [("h1", 5)] "t" "v").to_dict)
    rfl rfl rfl (by rfl)
  exact ⟨h.2.1, h.2.2⟩
